import Mathlib

/-!
Verification development for the nomadz meeting-bot recording service.

The definitions below are a shallow embedding of the JavaScript source:
the meeting lifecycle record (database/schema.sql, src/services/databaseService.js),
the retrying step executor `processStep` and the pipeline orchestrator
`processRecordingUrgently` / `retryProcessing` (src/services/meetingService.js),
the webhook controller (src/controllers/webhookController.js), the transfer
error classification (src/services/fileService.js), the reconciliation poller
(src/jobs/pollStatusJob.js, the variant with the 3-hour force-fail ceiling),
and the transcript text generator (src/services/transcriptService.js).

External collaborators (ChatterBox gateway, Google Drive, Slack, the Supabase
row store) are modelled as oracle parameters returning `Except` results; a JS
`throw` is an `Except.error`, a JS `try/catch` is a `match` on that result.
Timestamps are natural numbers (milliseconds).
-/

/-- One entry of the ChatterBox transcript array (fields destructured in
`generateTranscriptText`). -/
structure TranscriptEntry where
  speaker : String
  text : String
  timeStart : Nat := 0
  timeEnd : Nat := 0
  deriving DecidableEq

/-- Meeting lifecycle states appearing in the source
(`started`, `bot_joining`, `bot_joined`, `recording`, `processing`,
`completed`, `failed`). -/
inductive MeetingStatus where
  | started
  | bot_joining
  | bot_joined
  | recording
  | processing
  | completed
  | failed
  deriving DecidableEq

/-- The meetings row, with the columns the core logic reads or writes. -/
structure Meeting where
  id : String := ""
  meeting_title : String := ""
  status : MeetingStatus := .started
  chatterbox_session_id : Option String := none
  recording_s3_url : Option String := none
  google_drive_recording_id : Option String := none
  google_drive_recording_url : Option String := none
  google_drive_transcript_id : Option String := none
  google_drive_transcript_url : Option String := none
  slack_message_ts : Option String := none
  transcript_data : Option (List TranscriptEntry) := none
  recording_start_timestamp : Option Nat := none
  recording_end_timestamp : Option Nat := none
  processing_started_at : Option Nat := none
  processing_completed_at : Option Nat := none
  updated_at : Nat := 0
  deriving DecidableEq

/-- Session data returned by the ChatterBox gateway
(`chatterboxService.getSessionData`). -/
structure SessionData where
  recordingLink : Option String := none
  transcript : List TranscriptEntry := []
  startTimestamp : Option Nat := none
  endTimestamp : Option Nat := none
  deriving DecidableEq

/-- A processing_logs row (one ProcessingAttempt record).
`databaseService.logProcessingStep` inserts it, `updateProcessingStep`
rewrites status/attempt/error of the row named by its id. -/
structure LogRow where
  step : String
  status : String
  attempt : Option Nat := none
  errorMessage : Option String := none
  deriving DecidableEq

/-- Observable effects of a pipeline run, in program order. -/
inductive REvent where
  | stepStarted (name : String)
  | stepDone (name : String) (status : String)
  | meetingUpdate (tag : String) (m : Meeting)
  | alert (step : String) (err : String) (delivered : Bool)
  deriving DecidableEq

/-- Backoff delay awaited after a failed attempt:
`Math.pow(2, attempt) * 1000` (meetingService.processStep). -/
def backoffMs (attempt : Nat) : Nat := 2 ^ attempt * 1000

/-- The retry loop of `processStep`.  `left` counts the attempts still
allowed after the current one (so the loop as a whole makes at most
`left + 1` attempts); `attempt` is the 1-based attempt counter.  For a
`maxRetries ≥ 1` call the source loop `for (attempt = 1; attempt <= maxRetries)`
corresponds to `processStepGo f (maxRetries - 1) 1`.  Returns the final
result, the list of backoff delays awaited, and the number of the last
attempt made. -/
def processStepGo {α : Type} (f : Nat → Except String α) :
    Nat → Nat → Except String α × List Nat × Nat
  | 0, attempt =>
    match f attempt with
    | .ok a => (.ok a, [], attempt)
    | .error e => (.error e, [], attempt)
  | left' + 1, attempt =>
    match f attempt with
    | .ok a => (.ok a, [], attempt)
    | .error _ =>
      let r := processStepGo f left' (attempt + 1)
      (r.1, backoffMs attempt :: r.2.1, r.2.2)

/-- Result of one `processStep` invocation: the step result, the
processing_logs table after the call, the backoff delays awaited, the
last attempt number, and the emitted events. -/
structure StepOut (α : Type) where
  res : Except String α
  tbl : List LogRow
  delays : List Nat
  lastAttempt : Nat
  events : List REvent

/-- `meetingService.processStep(meetingId, stepName, fn, maxRetries)`:
inserts ONE processing_logs row with status started
(`databaseService.logProcessingStep`), runs the retry loop, and finally
rewrites that same row (`databaseService.updateProcessingStep(log.id, ...)`)
to completed (on the first successful attempt) or failed (after the last
attempt fails). -/
def processStep {α : Type} (stepName : String) (f : Nat → Except String α)
    (maxRetries : Nat) (tbl : List LogRow) : StepOut α :=
  let logId := tbl.length
  let tbl1 := tbl ++ [⟨stepName, "started", none, none⟩]
  let r := processStepGo f (maxRetries - 1) 1
  let st := match r.1 with
    | .ok _ => "completed"
    | .error _ => "failed"
  let msg := match r.1 with
    | .ok _ => none
    | .error e => some e
  ⟨r.1, tbl1.set logId ⟨stepName, st, some r.2.2, msg⟩, r.2.1, r.2.2,
    [.stepStarted stepName, .stepDone stepName st]⟩

/-- Whether an `Except` result is a success. -/
def exOk {α : Type} : Except String α → Bool
  | .ok _ => true
  | .error _ => false

/-- First attempt number in `1..N` on which `f` succeeds, if any
(the attempt at which the source loop returns). -/
def firstOkAttempt {α : Type} (f : Nat → Except String α) (N : Nat) : Option Nat :=
  (List.range' 1 N).find? (fun i => exOk (f i))

theorem processStepGo_ok_iff {α : Type} (f : Nat → Except String α) :
    ∀ (left attempt : Nat),
      exOk (processStepGo f left attempt).1 = true ↔
        ∃ i, attempt ≤ i ∧ i ≤ attempt + left ∧ exOk (f i) = true := by
  intro left
  induction left with
  | zero =>
    intro attempt
    cases h : f attempt with
    | ok a =>
      simp only [processStepGo, h]
      exact ⟨fun _ => ⟨attempt, le_refl _, by omega, by simp [exOk, h]⟩, fun _ => rfl⟩
    | error e =>
      simp only [processStepGo, h]
      constructor
      · intro hc; simp [exOk] at hc
      · rintro ⟨i, h1, h2, h3⟩
        have : i = attempt := by omega
        subst this
        simp [exOk, h] at h3
  | succ left' ih =>
    intro attempt
    cases h : f attempt with
    | ok a =>
      simp only [processStepGo, h]
      exact ⟨fun _ => ⟨attempt, le_refl _, by omega, by simp [exOk, h]⟩, fun _ => rfl⟩
    | error e =>
      simp only [processStepGo, h]
      rw [ih (attempt + 1)]
      constructor
      · rintro ⟨i, h1, h2, h3⟩
        exact ⟨i, by omega, by omega, h3⟩
      · rintro ⟨i, h1, h2, h3⟩
        refine ⟨i, ?_, by omega, h3⟩
        rcases Nat.eq_or_lt_of_le h1 with rfl | hlt
        · simp [exOk, h] at h3
        · omega

theorem firstOkAttempt_isSome_iff {α : Type} (f : Nat → Except String α) (N : Nat) :
    (firstOkAttempt f N).isSome = true ↔ ∃ i, 1 ≤ i ∧ i ≤ N ∧ exOk (f i) = true := by
  unfold firstOkAttempt
  rw [List.find?_isSome]
  constructor
  · rintro ⟨i, hmem, hp⟩
    rw [List.mem_range'_1] at hmem
    exact ⟨i, by omega, by omega, hp⟩
  · rintro ⟨i, h1, h2, h3⟩
    exact ⟨i, by rw [List.mem_range'_1]; omega, h3⟩

/-- Helper: the finalized row written by `processStep`. -/
theorem processStep_tbl {α : Type} (s : String) (f : Nat → Except String α)
    (N : Nat) (tbl : List LogRow) :
    (processStep s f N tbl).tbl =
      tbl ++ [⟨s,
        (match (processStepGo f (N - 1) 1).1 with
          | .ok _ => "completed"
          | .error _ => "failed"),
        some (processStepGo f (N - 1) 1).2.2,
        (match (processStepGo f (N - 1) 1).1 with
          | .ok _ => none
          | .error e => some e)⟩] := by
  unfold processStep
  induction tbl with
  | nil => rfl
  | cons a t ih => simp [List.set]

theorem processStepGo_delays_shape {α : Type} (f : Nat → Except String α) :
    ∀ (left attempt : Nat), ∃ k,
      (processStepGo f left attempt).2.1 = (List.range' attempt k).map backoffMs ∧
      k ≤ left := by
  intro left
  induction left with
  | zero =>
    intro attempt
    refine ⟨0, ?_, le_refl 0⟩
    cases h : f attempt <;> simp [processStepGo, h]
  | succ left' ih =>
    intro attempt
    cases h : f attempt with
    | ok a => exact ⟨0, by simp [processStepGo, h], by omega⟩
    | error e =>
      obtain ⟨k, hk, hkle⟩ := ih (attempt + 1)
      refine ⟨k + 1, ?_, by omega⟩
      simp [processStepGo, h, hk, List.range'_succ]

theorem getD_range'_map (g : Nat → Nat) :
    ∀ (k s i : Nat), i < k → ((List.range' s k).map g).getD i 0 = g (s + i) := by
  intro k
  induction k with
  | zero => intro s i h; omega
  | succ k' ih =>
    intro s i h
    rw [List.range'_succ]
    cases i with
    | zero => simp
    | succ i' =>
      have := ih (s + 1) i' (by omega)
      simp only [List.map_cons, List.getD_cons_succ]
      rw [this]
      congr 1
      omega

/-- C6: backoff delays within one `processStep` invocation double per failed
attempt (2 seconds after attempt 1, 4 seconds after attempt 2, 8 seconds after
attempt 3), so consecutive retry delays are strictly increasing. -/
theorem backoff_doubling {α : Type} (s : String) (f : Nat → Except String α)
    (N : Nat) (tbl : List LogRow) (i : Nat)
    (h : i + 1 < (processStep s f N tbl).delays.length) :
    (processStep s f N tbl).delays.getD i 0 = 2 ^ (i + 1) * 1000 ∧
    (processStep s f N tbl).delays.getD (i + 1) 0 =
      2 * (processStep s f N tbl).delays.getD i 0 ∧
    (processStep s f N tbl).delays.getD i 0 <
      (processStep s f N tbl).delays.getD (i + 1) 0 ∧
    backoffMs 1 = 2000 ∧ backoffMs 2 = 4000 ∧ backoffMs 3 = 8000 := by
  have hd : (processStep s f N tbl).delays = (processStepGo f (N - 1) 1).2.1 := rfl
  obtain ⟨k, hk, -⟩ := processStepGo_delays_shape f (N - 1) 1
  rw [hd, hk] at h ⊢
  have hlen : ((List.range' 1 k).map backoffMs).length = k := by simp
  rw [hlen] at h
  have h1 : ((List.range' 1 k).map backoffMs).getD i 0 = backoffMs (1 + i) :=
    getD_range'_map backoffMs k 1 i (by omega)
  have h2 : ((List.range' 1 k).map backoffMs).getD (i + 1) 0 = backoffMs (1 + (i + 1)) :=
    getD_range'_map backoffMs k 1 (i + 1) (by omega)
  rw [h1, h2]
  unfold backoffMs
  refine ⟨by ring_nf, by ring_nf, ?_, by norm_num, by norm_num, by norm_num⟩
  have hp : 2 ^ (1 + i) < 2 ^ (1 + (i + 1)) := by
    exact Nat.pow_lt_pow_right (by omega) (by omega)
  exact (Nat.mul_lt_mul_right (by omega)).mpr hp

/-- C6 witness: with a step failing three times, the recorded delays are
2000 ms then 4000 ms. -/
theorem backoff_doubling_witness :
    0 + 1 < (processStep "stream_to_drive"
        (fun _ => (Except.error "x" : Except String Nat)) 3 []).delays.length ∧
    ((processStep "stream_to_drive"
        (fun _ => (Except.error "x" : Except String Nat)) 3 []).delays.getD 0 0 =
        2 ^ (0 + 1) * 1000 ∧
      (processStep "stream_to_drive"
        (fun _ => (Except.error "x" : Except String Nat)) 3 []).delays.getD (0 + 1) 0 =
        2 * (processStep "stream_to_drive"
          (fun _ => (Except.error "x" : Except String Nat)) 3 []).delays.getD 0 0 ∧
      (processStep "stream_to_drive"
        (fun _ => (Except.error "x" : Except String Nat)) 3 []).delays.getD 0 0 <
        (processStep "stream_to_drive"
          (fun _ => (Except.error "x" : Except String Nat)) 3 []).delays.getD (0 + 1) 0 ∧
      backoffMs 1 = 2000 ∧ backoffMs 2 = 4000 ∧ backoffMs 3 = 8000) :=
  ⟨by decide,
    backoff_doubling "stream_to_drive"
      (fun _ => (Except.error "x" : Except String Nat)) 3 [] 0 (by decide)⟩

/-- C2 counterexample: with maxAttempts = 2 and a step that fails both
attempts, the executor makes 2 attempts but the processing_logs table holds a
single ProcessingAttempt record, not the two fresh-per-retry records the claim
asserts. -/
theorem processStep_rows_counterexample :
    (processStep "stream_to_drive"
      (fun _ => (Except.error "boom" : Except String Nat)) 2 []).lastAttempt = 2 ∧
    (processStep "stream_to_drive"
      (fun _ => (Except.error "boom" : Except String Nat)) 2 []).tbl.length = 1 ∧
    ¬ (processStep "stream_to_drive"
      (fun _ => (Except.error "boom" : Except String Nat)) 2 []).tbl.length = 2 := by
  refine ⟨rfl, rfl, by decide⟩

/-- C2 (amended): one invocation of `processStep` with maxAttempts = N ≥ 1
creates exactly ONE ProcessingAttempt record (not one per retry); that single
record is finalized as completed when some attempt in 1..N succeeds, and as
failed when every attempt fails, and the call result succeeds exactly when
some attempt succeeds. -/
theorem processStep_one_record {α : Type} (s : String) (f : Nat → Except String α)
    (N : Nat) (tbl : List LogRow) (h : 1 ≤ N) :
    (processStep s f N tbl).tbl.length = tbl.length + 1 ∧
    ((processStep s f N tbl).tbl.getLast?.map LogRow.status =
      some (if (firstOkAttempt f N).isSome then "completed" else "failed")) ∧
    exOk (processStep s f N tbl).res = (firstOkAttempt f N).isSome := by
  have hiff : exOk (processStepGo f (N - 1) 1).1 = (firstOkAttempt f N).isSome := by
    rw [Bool.eq_iff_iff, processStepGo_ok_iff f (N - 1) 1, firstOkAttempt_isSome_iff]
    constructor
    · rintro ⟨i, h1, h2, h3⟩; exact ⟨i, h1, by omega, h3⟩
    · rintro ⟨i, h1, h2, h3⟩; exact ⟨i, h1, by omega, h3⟩
  have hres : (processStep s f N tbl).res = (processStepGo f (N - 1) 1).1 := rfl
  refine ⟨?_, ?_, by rw [hres, hiff]⟩
  · rw [processStep_tbl]; simp
  · rw [processStep_tbl, List.getLast?_concat]
    cases hr : (processStepGo f (N - 1) 1).1 with
    | ok a =>
      have : (firstOkAttempt f N).isSome = true := by rw [← hiff, hr]; rfl
      simp [this]
    | error e =>
      have : (firstOkAttempt f N).isSome = false := by rw [← hiff, hr]; rfl
      simp [this]

/-- C2 witness: a step succeeding on attempt 2 of 3 yields one record,
finalized completed. -/
theorem processStep_one_record_witness :
    1 ≤ 3 ∧
    ((processStep "stream_to_drive"
        (fun i => if i = 2 then (Except.ok 0 : Except String Nat) else Except.error "x")
        3 []).tbl.length = ([] : List LogRow).length + 1 ∧
      ((processStep "stream_to_drive"
        (fun i => if i = 2 then (Except.ok 0 : Except String Nat) else Except.error "x")
        3 []).tbl.getLast?.map LogRow.status =
        some (if (firstOkAttempt
          (fun i => if i = 2 then (Except.ok 0 : Except String Nat) else Except.error "x")
          3).isSome then "completed" else "failed")) ∧
      exOk (processStep "stream_to_drive"
        (fun i => if i = 2 then (Except.ok 0 : Except String Nat) else Except.error "x")
        3 []).res = (firstOkAttempt
          (fun i => if i = 2 then (Except.ok 0 : Except String Nat) else Except.error "x")
          3).isSome) :=
  ⟨by decide,
    processStep_one_record "stream_to_drive"
      (fun i => if i = 2 then (Except.ok 0 : Except String Nat) else Except.error "x")
      3 [] (by decide)⟩

/-- The raw failure of the upstream GET / Drive upload inside
`fileService.streamRecordingToGoogleDrive`: `error.response?.status`,
`error.code`, `error.message`. -/
structure UpstreamFailure where
  status : Option Nat := none
  code : Option String := none
  message : String := ""
  deriving DecidableEq

/-- The error rethrown by the transfer step catch block. -/
inductive TransferError where
  | sourceExpired (status : Nat)
  | uploadTimeout
  | upstream (e : UpstreamFailure)
  deriving DecidableEq

/-- The catch block of `fileService.streamRecordingToGoogleDrive`:
HTTP 403/404 becomes the distinguishable expired-source error, an axios
ECONNABORTED becomes the upload-timeout error, anything else is rethrown
unchanged. -/
def classifyStreamError (e : UpstreamFailure) : TransferError :=
  if e.status = some 403 ∨ e.status = some 404 then
    .sourceExpired (e.status.getD 0)
  else if e.code = some "ECONNABORTED" then
    .uploadTimeout
  else
    .upstream e

/-- Message carried by each rethrown transfer error. -/
def transferErrorMessage : TransferError → String
  | .sourceExpired s =>
      "Recording URL has expired or is not accessible (" ++ toString s ++ ")"
  | .uploadTimeout =>
      "Upload timeout - recording URL may have expired during transfer"
  | .upstream e => e.message

/-- The Google Drive file returned by the transfer step. -/
structure DriveFile where
  id : String
  webViewLink : String
  deriving DecidableEq

/-- The Google Docs transcript document. -/
structure TranscriptDoc where
  id : String
  webViewLink : String
  deriving DecidableEq

/-- The Slack notification result. -/
structure SlackResult where
  messageTs : String
  deriving DecidableEq

/-- `fileService.streamRecordingToGoogleDrive`, with the upstream transfer
outcome abstracted: success passes the Drive file through, failure is
rethrown after classification. -/
def streamRecordingToGoogleDrive (raw : Except UpstreamFailure DriveFile) :
    Except TransferError DriveFile :=
  match raw with
  | .ok f => .ok f
  | .error e => .error (classifyStreamError e)

/-- `config/chatterbox.isRecordingUrlValid`: the accessibility check is
deprecated (it produced false failures against AWS S3 signed URLs) and
unconditionally returns true. -/
def isRecordingUrlValid (recordingUrl : String) : Bool := true

/-- Collaborator behaviors consumed by one pipeline run; each step oracle is
indexed by the attempt number of the retrying executor. -/
structure PipelineOracle where
  getSessionData : Nat → Except String SessionData
  streamToDrive : Nat → Except UpstreamFailure DriveFile
  createTranscriptDoc : Nat → Except String TranscriptDoc
  sendSlack : Nat → Except String SlackResult

/-- The transfer step body handed to `processStep`: stream then rethrow the
classified error by message. -/
def streamStepFun (o : PipelineOracle) (i : Nat) : Except String DriveFile :=
  match streamRecordingToGoogleDrive (o.streamToDrive i) with
  | .ok f => .ok f
  | .error te => .error (transferErrorMessage te)

/-- Outcome of the step sequence inside the try block of
`processRecordingUrgently`. -/
structure StepsOut where
  res : Except String (DriveFile × TranscriptDoc × SlackResult × SessionData)
  tbl : List LogRow
  events : List REvent

/-- Step 1 of `processRecordingUrgently`: when no recording URL was supplied
with the webhook, fetch the session data (step fetch_session_data) and take
its recording link, failing fatally when the session has none.  Returns the
resolved URL, the session data when it was fetched here, the processing_logs
rows and the events so far. -/
def stepFetchUrl (recordingUrl : Option String) (o : PipelineOracle) :
    Except String (String × Option SessionData) × List LogRow × List REvent :=
  match recordingUrl with
  | some u => (.ok (u, none), [], [])
  | none =>
    let s1 := processStep "fetch_session_data" o.getSessionData 3 []
    match s1.res with
    | .error e => (.error e, s1.tbl, s1.events)
    | .ok sd =>
      match sd.recordingLink with
      | none => (.error "No recording URL available from ChatterBox session",
          s1.tbl, s1.events)
      | some u => (.ok (u, some sd), s1.tbl, s1.events)

/-- Steps 5-6 of `processRecordingUrgently`: create the transcript document,
then send the Slack notification. -/
def runFromDoc (drive : DriveFile) (td : SessionData) (o : PipelineOracle)
    (tbl : List LogRow) (evs : List REvent) : StepsOut :=
  let s5 := processStep "create_transcript" o.createTranscriptDoc 3 tbl
  match s5.res with
  | .error e => ⟨.error e, s5.tbl, evs ++ s5.events⟩
  | .ok doc =>
    let s6 := processStep "send_notification" o.sendSlack 3 s5.tbl
    match s6.res with
    | .error e => ⟨.error e, s6.tbl, evs ++ s5.events ++ s6.events⟩
    | .ok slack => ⟨.ok (drive, doc, slack, td), s6.tbl,
        evs ++ s5.events ++ s6.events⟩

/-- Step 4 of `processRecordingUrgently`: fetch the transcript session data
(step fetch_transcript) unless it was already fetched in step 1. -/
def runFromTranscript (drive : DriveFile) (td0 : Option SessionData)
    (o : PipelineOracle) (tbl : List LogRow) (evs : List REvent) : StepsOut :=
  match td0 with
  | some sd => runFromDoc drive sd o tbl evs
  | none =>
    let s4 := processStep "fetch_transcript" o.getSessionData 3 tbl
    match s4.res with
    | .error e => ⟨.error e, s4.tbl, evs ++ s4.events⟩
    | .ok sd => runFromDoc drive sd o s4.tbl (evs ++ s4.events)

/-- Step 3 of `processRecordingUrgently`: stream the recording to Google
Drive (step stream_to_drive). -/
def runFromStream (td0 : Option SessionData) (o : PipelineOracle)
    (tbl : List LogRow) (evs : List REvent) : StepsOut :=
  let s3 := processStep "stream_to_drive" (streamStepFun o) 3 tbl
  match s3.res with
  | .error e => ⟨.error e, s3.tbl, evs ++ s3.events⟩
  | .ok drive => runFromTranscript drive td0 o s3.tbl (evs ++ s3.events)

/-- Step 2 of `processRecordingUrgently`: the URL validation step
(validate_recording_url) followed by the enforcement check
`if (!isUrlValid) throw` of the source. -/
def runFromValidate (u : String) (td0 : Option SessionData) (o : PipelineOracle)
    (tbl : List LogRow) (evs : List REvent) : StepsOut :=
  let s2 := processStep "validate_recording_url"
    (fun _ => .ok (isRecordingUrlValid u)) 3 tbl
  match s2.res with
  | .error e => ⟨.error e, s2.tbl, evs ++ s2.events⟩
  | .ok valid =>
    if valid = false then
      ⟨.error "Recording URL has expired or is not accessible",
        s2.tbl, evs ++ s2.events⟩
    else
      runFromStream td0 o s2.tbl (evs ++ s2.events)

/-- The step sequence of `meetingService.processRecordingUrgently`
(steps 1-6, each wrapped by `processStep`): fetch/resolve the recording URL,
advisory URL validation, streaming transfer, transcript fetch, transcript
document creation, Slack notification.  Any error flows to the caller
(the catch block of `processRecordingUrgently`). -/
def runSteps (recordingUrl : Option String) (o : PipelineOracle) : StepsOut :=
  match stepFetchUrl recordingUrl o with
  | (.error e, tbl, evs) => ⟨.error e, tbl, evs⟩
  | (.ok (u, td0), tbl, evs) => runFromValidate u td0 o tbl evs

/-- Outcome of one `processRecordingUrgently` call. -/
structure RunOut where
  final : Meeting
  events : List REvent
  tbl : List LogRow
  res : Except String Unit

/-- `meetingService.processRecordingUrgently(meetingId, recordingUrl, sessionId)`:
immediately (and unconditionally) writes status processing with the supplied
URL and a processing_started_at timestamp, runs the step sequence, then on
success writes status completed with all artifact references, and on any step
failure writes status failed plus a completion timestamp, calls
`handleCriticalError` (whose `sendCriticalAlert` is try/caught so an alert
failure is only logged), and rethrows the original error. -/
def processRecordingUrgently (m : Meeting) (recordingUrl : Option String)
    (sessionId : String) (o : PipelineOracle) (alertOk : Bool) (now : Nat) :
    RunOut :=
  let m1 := { m with
    status := .processing,
    recording_s3_url := recordingUrl,
    processing_started_at := some now,
    updated_at := now }
  let ev0 := [REvent.meetingUpdate "processing_start" m1]
  let s := runSteps recordingUrl o
  match s.res with
  | .ok (drive, doc, slack, td) =>
    let m2 := { m1 with
      status := .completed,
      google_drive_recording_id := some drive.id,
      google_drive_recording_url := some drive.webViewLink,
      google_drive_transcript_id := some doc.id,
      google_drive_transcript_url := some doc.webViewLink,
      recording_start_timestamp := td.startTimestamp,
      recording_end_timestamp := td.endTimestamp,
      transcript_data := some td.transcript,
      slack_message_ts := some slack.messageTs,
      processing_completed_at := some now,
      updated_at := now }
    ⟨m2, ev0 ++ s.events ++ [.meetingUpdate "completed" m2], s.tbl, .ok ()⟩
  | .error e =>
    let mf := { m1 with
      status := .failed,
      processing_completed_at := some now,
      updated_at := now }
    ⟨mf, ev0 ++ s.events ++
      [.meetingUpdate "failed" mf, .alert "urgent_processing" e alertOk],
      s.tbl, .error e⟩

/-- HTTP response of the finished-webhook branch. -/
inductive WebhookResp where
  | notFound
  | accepted
  deriving DecidableEq

/-- The finished-type branch of
`webhookController.handleChatterBoxWebhook`: look the meeting up by session
id (404 when absent), then start `processRecordingUrgently` with no condition
on the current status of the meeting (fire-and-forget with a logging catch) and
answer 200. -/
def handleFinishedWebhook (found : Option Meeting) (recordingUrl : Option String)
    (sessionId : String) (o : PipelineOracle) (alertOk : Bool) (now : Nat) :
    WebhookResp × Option RunOut :=
  match found with
  | none => (.notFound, none)
  | some m =>
    (.accepted, some (processRecordingUrgently m recordingUrl sessionId o alertOk now))

/-- C8: the transfer step failure rethrown to the caller is the
distinguishable source-expired error exactly when the upstream answered
HTTP 403 or 404; its message names the recording URL as expired or
inaccessible; every other upstream failure propagates as the timeout error or
as the original (generic/transient) error. -/
theorem transfer_error_classification (e : UpstreamFailure) :
    ((∃ s, classifyStreamError e = .sourceExpired s) ↔
      (e.status = some 403 ∨ e.status = some 404)) ∧
    (∀ s, classifyStreamError e = .sourceExpired s → (s = 403 ∨ s = 404)) ∧
    (∀ s, transferErrorMessage (.sourceExpired s) =
      "Recording URL has expired or is not accessible (" ++ toString s ++ ")") ∧
    (¬ (e.status = some 403 ∨ e.status = some 404) →
      classifyStreamError e = .uploadTimeout ∨ classifyStreamError e = .upstream e) ∧
    (∀ (raw : Except UpstreamFailure DriveFile) (e2 : UpstreamFailure),
      raw = .error e2 →
        streamRecordingToGoogleDrive raw = .error (classifyStreamError e2)) := by
  refine ⟨?_, ?_, fun s => rfl, ?_, ?_⟩
  · constructor
    · rintro ⟨s, hs⟩
      unfold classifyStreamError at hs
      by_cases h : e.status = some 403 ∨ e.status = some 404
      · exact h
      · exfalso
        rw [if_neg h] at hs
        by_cases hc : e.code = some "ECONNABORTED"
        · rw [if_pos hc] at hs; exact TransferError.noConfusion hs
        · rw [if_neg hc] at hs; exact TransferError.noConfusion hs
    · intro h
      exact ⟨e.status.getD 0, by unfold classifyStreamError; rw [if_pos h]⟩
  · intro s hs
    unfold classifyStreamError at hs
    by_cases h : e.status = some 403 ∨ e.status = some 404
    · rw [if_pos h] at hs
      have hsv : e.status.getD 0 = s := by
        exact TransferError.sourceExpired.inj hs
      rcases h with h | h <;> rw [h] at hsv <;> simp at hsv <;> omega
    · exfalso
      rw [if_neg h] at hs
      by_cases hc : e.code = some "ECONNABORTED"
      · rw [if_pos hc] at hs; exact TransferError.noConfusion hs
      · rw [if_neg hc] at hs; exact TransferError.noConfusion hs
  · intro h
    unfold classifyStreamError
    rw [if_neg h]
    by_cases hc : e.code = some "ECONNABORTED"
    · rw [if_pos hc]; exact Or.inl rfl
    · rw [if_neg hc]; exact Or.inr rfl
  · intro raw e2 hr
    subst hr
    rfl

/-- C8 witness: a 403 upstream failure is classified as the expired-source
error. -/
theorem transfer_error_classification_witness :
    ∃ s, classifyStreamError ⟨some 403, none, "Request failed"⟩ =
      .sourceExpired s :=
  (transfer_error_classification ⟨some 403, none, "Request failed"⟩).1.mpr
    (Or.inl rfl)

/-- A completed meeting with its artifacts already persisted. -/
def mCompleted : Meeting where
  id := "m1"
  meeting_title := "Weekly sync"
  status := .completed
  chatterbox_session_id := some "sess-1"
  google_drive_recording_id := some "drive-old"
  google_drive_recording_url := some "view-old"
  processing_completed_at := some 1000
  updated_at := 1000

/-- Collaborators that all succeed. -/
def oAllOk : PipelineOracle where
  getSessionData := fun _ => .ok { recordingLink := some "https://s3/rec2" }
  streamToDrive := fun _ => .ok ⟨"drive-new", "view-new"⟩
  createTranscriptDoc := fun _ => .ok ⟨"doc-new", "docview-new"⟩
  sendSlack := fun _ => .ok ⟨"ts-1"⟩

/-- C1 counterexample: a second finished trigger for an already completed
meeting is not a no-op: the webhook accepts it and starts a fresh pipeline
run, whose first effect rewrites the row to status processing, which streams
the recording to Drive again, and which overwrites the stored artifact
reference. -/
theorem duplicate_finished_counterexample :
    (handleFinishedWebhook (some mCompleted) (some "https://s3/rec2") "sess-1"
      oAllOk true 2000).1 = WebhookResp.accepted ∧
    ∃ r : RunOut,
      (handleFinishedWebhook (some mCompleted) (some "https://s3/rec2") "sess-1"
        oAllOk true 2000).2 = some r ∧
      (∃ m1, r.events.head? = some (.meetingUpdate "processing_start" m1) ∧
        m1.status = .processing) ∧
      REvent.stepStarted "stream_to_drive" ∈ r.events ∧
      r.final.google_drive_recording_id = some "drive-new" ∧
      mCompleted.google_drive_recording_id = some "drive-old" ∧
      r.final.google_drive_recording_id ≠ mCompleted.google_drive_recording_id := by
  refine ⟨rfl,
    processRecordingUrgently mCompleted (some "https://s3/rec2") "sess-1"
      oAllOk true 2000, rfl, ?_, ?_, ?_, ?_, ?_⟩
  · exact ⟨{ mCompleted with
      status := .processing,
      recording_s3_url := some "https://s3/rec2",
      processing_started_at := some 2000,
      updated_at := 2000 }, by decide, rfl⟩
  · decide
  · decide
  · rfl
  · decide

/-- C1 (amended): the finished trigger is not guarded by the current
status of the meeting: the webhook dispatches `processRecordingUrgently` for every
found meeting, and that call behaves identically whatever the stored status
(processing, completed and failed included) — its first effect always
rewrites the row to status processing and the pipeline re-runs. -/
theorem processRecording_no_status_guard (m : Meeting) (s1 s2 : MeetingStatus)
    (url : Option String) (sid : String) (o : PipelineOracle) (alertOk : Bool)
    (now : Nat) :
    processRecordingUrgently { m with status := s1 } url sid o alertOk now =
      processRecordingUrgently { m with status := s2 } url sid o alertOk now ∧
    (processRecordingUrgently { m with status := s1 } url sid o alertOk now).events.head? =
      some (.meetingUpdate "processing_start" { m with
        status := .processing,
        recording_s3_url := url,
        processing_started_at := some now,
        updated_at := now }) ∧
    (handleFinishedWebhook (some { m with status := s1 }) url sid o alertOk now).2 =
      some (processRecordingUrgently { m with status := s1 } url sid o alertOk now) := by
  refine ⟨rfl, ?_, rfl⟩
  cases h : (runSteps url o).res with
  | ok a =>
    obtain ⟨drive, doc, slack, td⟩ := a
    simp [processRecordingUrgently, h]
  | error e =>
    simp [processRecordingUrgently, h]

/-- C4: when the step sequence fails, the orchestrator persists status failed
together with a completion timestamp strictly before the alert signal, and an
alert delivery failure changes nothing observable besides the alert event
itself: the original step error is rethrown to the caller either way. -/
theorem failure_persists_before_alert (m : Meeting) (url : Option String)
    (sid : String) (o : PipelineOracle) (now : Nat) (e : String)
    (h : (runSteps url o).res = .error e) :
    ∃ pre mf,
      (∀ b : Bool,
        (processRecordingUrgently m url sid o b now).events =
          pre ++ [.meetingUpdate "failed" mf, .alert "urgent_processing" e b] ∧
        (processRecordingUrgently m url sid o b now).res = .error e ∧
        (processRecordingUrgently m url sid o b now).final = mf) ∧
      mf.status = .failed ∧ mf.processing_completed_at = some now := by
  refine ⟨REvent.meetingUpdate "processing_start" { m with
      status := .processing,
      recording_s3_url := url,
      processing_started_at := some now,
      updated_at := now } :: (runSteps url o).events,
    { m with
      status := .failed,
      recording_s3_url := url,
      processing_started_at := some now,
      processing_completed_at := some now,
      updated_at := now },
    fun b => ?_, rfl, rfl⟩
  refine ⟨?_, ?_, ?_⟩ <;> simp [processRecordingUrgently, h]

/-- Collaborators whose streaming transfer always answers HTTP 403. -/
def oStream403 : PipelineOracle where
  getSessionData := fun _ => .ok { recordingLink := some "https://s3/rec" }
  streamToDrive := fun _ => .error { status := some 403, message := "Request failed" }
  createTranscriptDoc := fun _ => .ok ⟨"doc", "docview"⟩
  sendSlack := fun _ => .ok ⟨"ts"⟩

/-- C4 witness: a transfer failing all attempts with 403 drives the failure
path at a concrete input. -/
theorem failure_persists_before_alert_witness :
    (runSteps (some "https://s3/rec") oStream403).res =
      .error "Recording URL has expired or is not accessible (403)" ∧
    ∃ pre mf,
      (∀ b : Bool,
        (processRecordingUrgently mCompleted (some "https://s3/rec") "sess-1"
            oStream403 b 2000).events =
          pre ++ [.meetingUpdate "failed" mf,
            .alert "urgent_processing"
              "Recording URL has expired or is not accessible (403)" b] ∧
        (processRecordingUrgently mCompleted (some "https://s3/rec") "sess-1"
            oStream403 b 2000).res =
          .error "Recording URL has expired or is not accessible (403)" ∧
        (processRecordingUrgently mCompleted (some "https://s3/rec") "sess-1"
            oStream403 b 2000).final = mf) ∧
      mf.status = .failed ∧ mf.processing_completed_at = some 2000 :=
  ⟨rfl,
    failure_persists_before_alert mCompleted (some "https://s3/rec") "sess-1"
      oStream403 2000 "Recording URL has expired or is not accessible (403)"
      rfl⟩

theorem stepStarted_mem_processStep {α : Type} {n s : String}
    {f : Nat → Except String α} {N : Nat} {tbl : List LogRow} :
    REvent.stepStarted n ∈ (processStep s f N tbl).events ↔ n = s := by
  have hev : (processStep s f N tbl).events =
      [.stepStarted s, .stepDone s (match (processStepGo f (N - 1) 1).1 with
        | .ok _ => "completed"
        | .error _ => "failed")] := rfl
  rw [hev]
  simp

/-- Rows appended by a step named differently from validate_recording_url
preserve the validate-rows-are-completed property. -/
theorem validate_row_pres {α : Type} (s : String) (f : Nat → Except String α)
    (N : Nat) (tbl : List LogRow) (hs : ¬ s = "validate_recording_url")
    (hp : ∀ row ∈ tbl, row.step = "validate_recording_url" →
      row.status = "completed") :
    ∀ row ∈ (processStep s f N tbl).tbl,
      row.step = "validate_recording_url" → row.status = "completed" := by
  intro row hrow hstep
  rw [processStep_tbl] at hrow
  rcases List.mem_append.mp hrow with h | h
  · exact hp row h hstep
  · rw [List.mem_singleton] at h
    subst h
    exact absurd hstep hs

/-- The validate step itself finalizes its row completed (its body is the
hard-coded accessible check). -/
theorem validate_row_self (u : String) (tbl : List LogRow)
    (hp : ∀ row ∈ tbl, row.step = "validate_recording_url" →
      row.status = "completed") :
    ∀ row ∈ (processStep "validate_recording_url"
        (fun _ => Except.ok (isRecordingUrlValid u)) 3 tbl).tbl,
      row.step = "validate_recording_url" → row.status = "completed" := by
  intro row hrow hstep
  rw [processStep_tbl] at hrow
  rcases List.mem_append.mp hrow with h | h
  · exact hp row h hstep
  · rw [List.mem_singleton] at h
    subst h
    rfl

theorem events_prefix_runFromDoc (drive : DriveFile) (td : SessionData)
    (o : PipelineOracle) (tbl : List LogRow) (evs : List REvent) :
    ∃ t, (runFromDoc drive td o tbl evs).events = evs ++ t := by
  cases h5 : (processStep "create_transcript" o.createTranscriptDoc 3 tbl).res with
  | error e =>
    refine ⟨(processStep "create_transcript" o.createTranscriptDoc 3 tbl).events, ?_⟩
    simp only [runFromDoc, h5]
  | ok doc =>
    cases h6 : (processStep "send_notification" o.sendSlack 3
        (processStep "create_transcript" o.createTranscriptDoc 3 tbl).tbl).res with
    | error e =>
      refine ⟨(processStep "create_transcript" o.createTranscriptDoc 3 tbl).events ++
        (processStep "send_notification" o.sendSlack 3
          (processStep "create_transcript" o.createTranscriptDoc 3 tbl).tbl).events, ?_⟩
      simp only [runFromDoc, h5, h6]
      simp
    | ok slack =>
      refine ⟨(processStep "create_transcript" o.createTranscriptDoc 3 tbl).events ++
        (processStep "send_notification" o.sendSlack 3
          (processStep "create_transcript" o.createTranscriptDoc 3 tbl).tbl).events, ?_⟩
      simp only [runFromDoc, h5, h6]
      simp

theorem events_prefix_runFromTranscript (drive : DriveFile)
    (td0 : Option SessionData) (o : PipelineOracle) (tbl : List LogRow)
    (evs : List REvent) :
    ∃ t, (runFromTranscript drive td0 o tbl evs).events = evs ++ t := by
  cases td0 with
  | some sd => exact events_prefix_runFromDoc drive sd o tbl evs
  | none =>
    cases h4 : (processStep "fetch_transcript" o.getSessionData 3 tbl).res with
    | error e =>
      refine ⟨(processStep "fetch_transcript" o.getSessionData 3 tbl).events, ?_⟩
      simp only [runFromTranscript, h4]
    | ok sd =>
      obtain ⟨t, ht⟩ := events_prefix_runFromDoc drive sd o
        (processStep "fetch_transcript" o.getSessionData 3 tbl).tbl
        (evs ++ (processStep "fetch_transcript" o.getSessionData 3 tbl).events)
      refine ⟨(processStep "fetch_transcript" o.getSessionData 3 tbl).events ++ t, ?_⟩
      simp only [runFromTranscript, h4, ht]
      simp

/-- Once the transfer stage is entered, the stream_to_drive step is started,
whatever the collaborators then do. -/
theorem stream_started_runFromStream (td0 : Option SessionData)
    (o : PipelineOracle) (tbl : List LogRow) (evs : List REvent) :
    REvent.stepStarted "stream_to_drive" ∈ (runFromStream td0 o tbl evs).events := by
  unfold runFromStream
  cases h3 : (processStep "stream_to_drive" (streamStepFun o) 3 tbl).res with
  | error e =>
    simp only [h3]
    refine List.mem_append.mpr (Or.inr ?_)
    exact stepStarted_mem_processStep.mpr rfl
  | ok drive =>
    simp only [h3]
    obtain ⟨t, ht⟩ := events_prefix_runFromTranscript drive td0 o
      (processStep "stream_to_drive" (streamStepFun o) 3 tbl).tbl
      (evs ++ (processStep "stream_to_drive" (streamStepFun o) 3 tbl).events)
    rw [ht]
    refine List.mem_append.mpr (Or.inl (List.mem_append.mpr (Or.inr ?_)))
    exact stepStarted_mem_processStep.mpr rfl

/-- The validate stage always reaches the transfer stage: its step body is
the hard-coded accessible check, so the enforcement throw is dead code. -/
theorem stream_started_runFromValidate (u : String) (td0 : Option SessionData)
    (o : PipelineOracle) (tbl : List LogRow) (evs : List REvent) :
    REvent.stepStarted "stream_to_drive" ∈
      (runFromValidate u td0 o tbl evs).events := by
  have h2 : (processStep "validate_recording_url"
      (fun _ => Except.ok (isRecordingUrlValid u)) 3 tbl).res = .ok true := rfl
  simp only [runFromValidate, h2]
  simp only [Bool.true_eq_false, if_false]
  exact stream_started_runFromStream td0 o _ _

theorem tbl_inv_runFromDoc (drive : DriveFile) (td : SessionData)
    (o : PipelineOracle) (tbl : List LogRow) (evs : List REvent)
    (hp : ∀ row ∈ tbl, row.step = "validate_recording_url" →
      row.status = "completed") :
    ∀ row ∈ (runFromDoc drive td o tbl evs).tbl,
      row.step = "validate_recording_url" → row.status = "completed" := by
  cases h5 : (processStep "create_transcript" o.createTranscriptDoc 3 tbl).res with
  | error e =>
    simp only [runFromDoc, h5]
    exact validate_row_pres _ _ _ _ (by decide) hp
  | ok doc =>
    cases h6 : (processStep "send_notification" o.sendSlack 3
        (processStep "create_transcript" o.createTranscriptDoc 3 tbl).tbl).res with
    | error e =>
      simp only [runFromDoc, h5, h6]
      exact validate_row_pres _ _ _ _ (by decide)
        (validate_row_pres _ _ _ _ (by decide) hp)
    | ok slack =>
      simp only [runFromDoc, h5, h6]
      exact validate_row_pres _ _ _ _ (by decide)
        (validate_row_pres _ _ _ _ (by decide) hp)

theorem tbl_inv_runFromTranscript (drive : DriveFile) (td0 : Option SessionData)
    (o : PipelineOracle) (tbl : List LogRow) (evs : List REvent)
    (hp : ∀ row ∈ tbl, row.step = "validate_recording_url" →
      row.status = "completed") :
    ∀ row ∈ (runFromTranscript drive td0 o tbl evs).tbl,
      row.step = "validate_recording_url" → row.status = "completed" := by
  cases td0 with
  | some sd => exact tbl_inv_runFromDoc drive sd o tbl evs hp
  | none =>
    cases h4 : (processStep "fetch_transcript" o.getSessionData 3 tbl).res with
    | error e =>
      simp only [runFromTranscript, h4]
      exact validate_row_pres _ _ _ _ (by decide) hp
    | ok sd =>
      simp only [runFromTranscript, h4]
      exact tbl_inv_runFromDoc drive sd o _ _
        (validate_row_pres _ _ _ _ (by decide) hp)

theorem tbl_inv_runFromStream (td0 : Option SessionData) (o : PipelineOracle)
    (tbl : List LogRow) (evs : List REvent)
    (hp : ∀ row ∈ tbl, row.step = "validate_recording_url" →
      row.status = "completed") :
    ∀ row ∈ (runFromStream td0 o tbl evs).tbl,
      row.step = "validate_recording_url" → row.status = "completed" := by
  cases h3 : (processStep "stream_to_drive" (streamStepFun o) 3 tbl).res with
  | error e =>
    simp only [runFromStream, h3]
    exact validate_row_pres _ _ _ _ (by decide) hp
  | ok drive =>
    simp only [runFromStream, h3]
    exact tbl_inv_runFromTranscript drive td0 o _ _
      (validate_row_pres _ _ _ _ (by decide) hp)

theorem tbl_inv_runFromValidate (u : String) (td0 : Option SessionData)
    (o : PipelineOracle) (tbl : List LogRow) (evs : List REvent)
    (hp : ∀ row ∈ tbl, row.step = "validate_recording_url" →
      row.status = "completed") :
    ∀ row ∈ (runFromValidate u td0 o tbl evs).tbl,
      row.step = "validate_recording_url" → row.status = "completed" := by
  have h2 : (processStep "validate_recording_url"
      (fun _ => Except.ok (isRecordingUrlValid u)) 3 tbl).res = .ok true := rfl
  simp only [runFromValidate, h2]
  simp only [Bool.true_eq_false, if_false]
  exact tbl_inv_runFromStream td0 o _ _ (validate_row_self u tbl hp)

theorem tbl_inv_stepFetchUrl (ru : Option String) (o : PipelineOracle) :
    ∀ row ∈ (stepFetchUrl ru o).2.1,
      row.step = "validate_recording_url" → row.status = "completed" := by
  have hbase : ∀ row ∈ ([] : List LogRow),
      row.step = "validate_recording_url" → row.status = "completed" := by
    intro row h
    exact absurd h (List.not_mem_nil row)
  cases ru with
  | some u => exact hbase
  | none =>
    cases h1 : (processStep "fetch_session_data" o.getSessionData 3 []).res with
    | error e =>
      simp only [stepFetchUrl, h1]
      exact validate_row_pres _ _ _ _ (by decide) hbase
    | ok sd =>
      cases hl : sd.recordingLink with
      | none =>
        simp only [stepFetchUrl, h1, hl]
        exact validate_row_pres _ _ _ _ (by decide) hbase
      | some u =>
        simp only [stepFetchUrl, h1, hl]
        exact validate_row_pres _ _ _ _ (by decide) hbase

theorem validate_not_in_fetch_events (ru : Option String) (o : PipelineOracle) :
    REvent.stepStarted "validate_recording_url" ∉ (stepFetchUrl ru o).2.2 := by
  cases ru with
  | some u => exact List.not_mem_nil _
  | none =>
    cases h1 : (processStep "fetch_session_data" o.getSessionData 3 []).res with
    | error e =>
      simp only [stepFetchUrl, h1]
      intro hmem
      exact absurd (stepStarted_mem_processStep.mp hmem) (by decide)
    | ok sd =>
      cases hl : sd.recordingLink with
      | none =>
        simp only [stepFetchUrl, h1, hl]
        intro hmem
        exact absurd (stepStarted_mem_processStep.mp hmem) (by decide)
      | some u =>
        simp only [stepFetchUrl, h1, hl]
        intro hmem
        exact absurd (stepStarted_mem_processStep.mp hmem) (by decide)

/-- C5: the validate-source check never blocks the pipeline: the URL check is
hard-coded accessible (deprecated after false negatives on signed URLs), so
whenever the validate step runs its ProcessingAttempt record finalizes
completed (never failed), and the transfer step is always started next,
whatever the recording URL. -/
theorem validate_step_advisory (u : String) (ru : Option String)
    (o : PipelineOracle) :
    isRecordingUrlValid u = true ∧
    (REvent.stepStarted "validate_recording_url" ∈ (runSteps ru o).events →
      REvent.stepStarted "stream_to_drive" ∈ (runSteps ru o).events) ∧
    (∀ row ∈ (runSteps ru o).tbl,
      row.step = "validate_recording_url" → row.status = "completed") := by
  refine ⟨rfl, ?_, ?_⟩
  · rcases hf : stepFetchUrl ru o with ⟨fres, ftbl, fevs⟩
    cases fres with
    | error e =>
      intro hv
      exfalso
      have hev : (runSteps ru o).events = fevs := by simp only [runSteps, hf]
      rw [hev] at hv
      have hnot := validate_not_in_fetch_events ru o
      rw [hf] at hnot
      exact hnot hv
    | ok p =>
      obtain ⟨u', td0⟩ := p
      intro _
      have hrun : runSteps ru o = runFromValidate u' td0 o ftbl fevs := by
        simp only [runSteps, hf]
      rw [hrun]
      exact stream_started_runFromValidate u' td0 o ftbl fevs
  · rcases hf : stepFetchUrl ru o with ⟨fres, ftbl, fevs⟩
    have hpf := tbl_inv_stepFetchUrl ru o
    rw [hf] at hpf
    cases fres with
    | error e =>
      have htbl : (runSteps ru o).tbl = ftbl := by simp only [runSteps, hf]
      rw [htbl]
      exact hpf
    | ok p =>
      obtain ⟨u', td0⟩ := p
      have hrun : runSteps ru o = runFromValidate u' td0 o ftbl fevs := by
        simp only [runSteps, hf]
      rw [hrun]
      exact tbl_inv_runFromValidate u' td0 o ftbl fevs hpf

/-- C5 witness: on a concrete run both the validate step and the transfer
step appear, via the implication of the theorem. -/
theorem validate_step_advisory_witness :
    REvent.stepStarted "validate_recording_url" ∈
      (runSteps (some "https://s3/rec2") oAllOk).events ∧
    REvent.stepStarted "stream_to_drive" ∈
      (runSteps (some "https://s3/rec2") oAllOk).events :=
  ⟨by decide,
    (validate_step_advisory "https://s3/rec2" (some "https://s3/rec2")
      oAllOk).2.1 (by decide)⟩

/-- Observable effects of the reconciliation poller. -/
inductive PollEvent where
  | warnedNoSession (meetingId : String)
  | forceFailed (m : Meeting)
  | gatewayQuery (sessionId : String)
  | dispatchedProcessing (meetingId : String) (url : String)
  | sessionErrorLogged (sessionId : String) (e : String)
  | checkErrorLogged (meetingId : String) (e : String)
  deriving DecidableEq

/-- Collaborators consumed by the poller: the ChatterBox session lookup and
the result of the force-fail row update. -/
structure PollOracle where
  getSessionData : String → Except String SessionData
  updateMeetingResult : Except String Unit

/-- Body of `pollStatusJob.checkMeetingStatus` (the try block): skip meetings
without a session id; compute the age of the current status from updated_at;
in bot_joined for more than 180 minutes, mark the meeting failed (with a
processing_completed_at stamp) and return without contacting ChatterBox; in
bot_joined for more than 2 minutes, query the session and fire-and-forget
`processRecordingUrgently` when a recording link appeared (query failures are
logged and skipped); in recording for more than 30 minutes, the same query
and conditional dispatch. -/
def checkMeetingStatusCore (m : Meeting) (now : Nat) (o : PollOracle) :
    Except String (List PollEvent) :=
  match m.chatterbox_session_id with
  | none => .ok [.warnedNoSession m.id]
  | some sid =>
    let statusAgeMinutes := (now - m.updated_at) / 60000
    if m.status = .bot_joined ∧ statusAgeMinutes > 180 then
      match o.updateMeetingResult with
      | .ok _ => .ok [.forceFailed { m with
          status := .failed,
          processing_completed_at := some now,
          updated_at := now }]
      | .error e => .error e
    else
      let evs1 :=
        if m.status = .bot_joined ∧ statusAgeMinutes > 2 then
          match o.getSessionData sid with
          | .ok sd =>
            match sd.recordingLink with
            | some url => [PollEvent.gatewayQuery sid,
                .dispatchedProcessing m.id url]
            | none => [PollEvent.gatewayQuery sid]
          | .error e => [PollEvent.gatewayQuery sid, .sessionErrorLogged sid e]
        else []
      let evs2 :=
        if m.status = .recording ∧ statusAgeMinutes > 30 then
          match o.getSessionData sid with
          | .ok sd =>
            match sd.recordingLink with
            | some url => [PollEvent.gatewayQuery sid,
                .dispatchedProcessing m.id url]
            | none => [PollEvent.gatewayQuery sid]
          | .error e => [PollEvent.gatewayQuery sid, .sessionErrorLogged sid e]
        else []
      .ok (evs1 ++ evs2)

/-- `pollStatusJob.checkMeetingStatus`: its whole body sits in a try/catch
whose catch only logs, so the per-meeting check never throws into the poll
loop. -/
def checkMeetingStatus (m : Meeting) (now : Nat) (o : PollOracle) :
    List PollEvent :=
  match checkMeetingStatusCore m now o with
  | .ok evs => evs
  | .error e => [.checkErrorLogged m.id e]

/-- `pollStatusJob.pollMeetingStatuses`: fetch the bot_joined and recording
meetings (a fetch failure is caught by the cycle-level catch and only
logged), then check each meeting in order.  Returns the per-meeting event
lists and the logged cycle error, if any. -/
def pollMeetingStatuses
    (dbFetch : Except String (List Meeting × List Meeting))
    (o : PollOracle) (now : Nat) :
    List (Meeting × List PollEvent) × Option String :=
  match dbFetch with
  | .error e => ([], some e)
  | .ok (stuck, rec) =>
    ((stuck ++ rec).map (fun m => (m, checkMeetingStatus m now o)), none)

/-- `databaseService.getMeetingsByStatus`: the rows whose status equals the
requested one, up to the limit. -/
def getMeetingsByStatus (tbl : List Meeting) (s : MeetingStatus)
    (limit : Nat) : List Meeting :=
  (tbl.filter (fun m => m.status = s)).take limit

/-- The force-fail row update the poller writes for a meeting stuck in
bot_joined past the ceiling. -/
def forceFailUpdate (m : Meeting) (now : Nat) : Meeting :=
  { m with
    status := .failed,
    processing_completed_at := some now,
    updated_at := now }

/-- C3: a meeting the poller finds in bot_joined whose status age exceeds the
3-hour ceiling is force-transitioned to failed (with a completion stamp) and
the check returns at once: no ChatterBox query, no processing dispatch, and
the now-failed row no longer matches either status the poller sweeps. -/
theorem poller_force_fail_ceiling (m : Meeting) (now : Nat) (o : PollOracle)
    (sid : String)
    (hsid : m.chatterbox_session_id = some sid)
    (hstat : m.status = .bot_joined)
    (hage : (now - m.updated_at) / 60000 > 180)
    (hdb : o.updateMeetingResult = .ok ()) :
    checkMeetingStatus m now o = [.forceFailed (forceFailUpdate m now)] ∧
    (forceFailUpdate m now).status = .failed ∧
    (forceFailUpdate m now).processing_completed_at = some now ∧
    (∀ s', PollEvent.gatewayQuery s' ∉ checkMeetingStatus m now o) ∧
    (∀ i u, PollEvent.dispatchedProcessing i u ∉ checkMeetingStatus m now o) ∧
    (∀ tbl lim, forceFailUpdate m now ∉ getMeetingsByStatus tbl .bot_joined lim ∧
      forceFailUpdate m now ∉ getMeetingsByStatus tbl .recording lim) := by
  have hcore : checkMeetingStatusCore m now o =
      .ok [.forceFailed (forceFailUpdate m now)] := by
    simp only [checkMeetingStatusCore, forceFailUpdate, hsid]
    rw [if_pos ⟨hstat, hage⟩, hdb]
  have hchk : checkMeetingStatus m now o = [.forceFailed (forceFailUpdate m now)] := by
    unfold checkMeetingStatus
    rw [hcore]
  refine ⟨hchk, rfl, rfl, ?_, ?_, ?_⟩
  · intro s' hmem
    rw [hchk, List.mem_singleton] at hmem
    exact PollEvent.noConfusion hmem
  · intro i u hmem
    rw [hchk, List.mem_singleton] at hmem
    exact PollEvent.noConfusion hmem
  · intro tbl lim
    constructor
    · intro hmem
      have h1 := List.mem_of_mem_take hmem
      rw [List.mem_filter] at h1
      have h2 := h1.2
      simp [forceFailUpdate] at h2
    · intro hmem
      have h1 := List.mem_of_mem_take hmem
      rw [List.mem_filter] at h1
      have h2 := h1.2
      simp [forceFailUpdate] at h2

/-- A meeting stuck in bot_joined since epoch. -/
def mStuck : Meeting where
  id := "m9"
  meeting_title := "Stuck"
  status := .bot_joined
  chatterbox_session_id := some "s9"
  updated_at := 0

/-- A meeting stuck in recording. -/
def mRec : Meeting where
  id := "m10"
  meeting_title := "LongRecording"
  status := .recording
  chatterbox_session_id := some "s10"
  updated_at := 0

/-- Poller collaborators where the row update succeeds and the gateway
fails. -/
def oPoll : PollOracle where
  getSessionData := fun _ => .error "gateway down"
  updateMeetingResult := .ok ()

/-- Poller collaborators that all fail. -/
def oPollFail : PollOracle where
  getSessionData := fun _ => .error "gateway down"
  updateMeetingResult := .error "row update refused"

/-- C3 witness: scenario B, a meeting in bot_joined for 4 hours (240 minutes)
is force-failed without contacting the provider. -/
theorem poller_force_fail_ceiling_witness :
    checkMeetingStatus mStuck 14400000 oPoll =
      [.forceFailed (forceFailUpdate mStuck 14400000)] ∧
    (forceFailUpdate mStuck 14400000).status = .failed ∧
    (forceFailUpdate mStuck 14400000).processing_completed_at = some 14400000 ∧
    (∀ s', PollEvent.gatewayQuery s' ∉ checkMeetingStatus mStuck 14400000 oPoll) ∧
    (∀ i u, PollEvent.dispatchedProcessing i u ∉
      checkMeetingStatus mStuck 14400000 oPoll) ∧
    (∀ tbl lim,
      forceFailUpdate mStuck 14400000 ∉ getMeetingsByStatus tbl .bot_joined lim ∧
      forceFailUpdate mStuck 14400000 ∉ getMeetingsByStatus tbl .recording lim) :=
  poller_force_fail_ceiling mStuck 14400000 oPoll "s9" rfl rfl (by decide) rfl

/-- C9: the poll cycle is resilient: when the row-store fetch succeeds, every
fetched meeting is examined whatever the per-meeting collaborators do (each
per-meeting failure is caught inside `checkMeetingStatus`), and when the
row-store fetch fails the cycle only records the logged error instead of
propagating it. -/
theorem poll_cycle_resilient
    (dbFetch : Except String (List Meeting × List Meeting))
    (o : PollOracle) (now : Nat) :
    (∀ stuck rec, dbFetch = .ok (stuck, rec) →
      (pollMeetingStatuses dbFetch o now).1.map Prod.fst = stuck ++ rec ∧
      (pollMeetingStatuses dbFetch o now).1 =
        (stuck ++ rec).map (fun m => (m, checkMeetingStatus m now o)) ∧
      (pollMeetingStatuses dbFetch o now).2 = none) ∧
    (∀ e, dbFetch = .error e →
      pollMeetingStatuses dbFetch o now = ([], some e)) := by
  constructor
  · intro stuck rec hdb
    subst hdb
    refine ⟨?_, rfl, rfl⟩
    show ((stuck ++ rec).map (fun m => (m, checkMeetingStatus m now o))).map
      Prod.fst = stuck ++ rec
    rw [List.map_map]
    have hfun : (Prod.fst ∘ fun m : Meeting => (m, checkMeetingStatus m now o)) =
        fun m => m := rfl
    rw [hfun, List.map_id']
  · intro e hdb
    subst hdb
    rfl

/-- C9 witness: with every collaborator failing, both meetings of a concrete
cycle are still examined, and a failed row-store fetch yields only a logged
cycle error. -/
theorem poll_cycle_resilient_witness :
    ((pollMeetingStatuses (.ok ([mStuck], [mRec])) oPollFail 14400000).1.map
        Prod.fst = [mStuck] ++ [mRec] ∧
      (pollMeetingStatuses (.ok ([mStuck], [mRec])) oPollFail 14400000).1 =
        ([mStuck] ++ [mRec]).map
          (fun m => (m, checkMeetingStatus m 14400000 oPollFail)) ∧
      (pollMeetingStatuses (.ok ([mStuck], [mRec])) oPollFail 14400000).2 =
        none) ∧
    pollMeetingStatuses (.error "db down") oPollFail 14400000 =
      ([], some "db down") :=
  ⟨(poll_cycle_resilient (.ok ([mStuck], [mRec])) oPollFail 14400000).1
      [mStuck] [mRec] rfl,
    (poll_cycle_resilient (.error "db down") oPollFail 14400000).2
      "db down" rfl⟩

/-- HTTP-level outcome of the manual retry endpoint. -/
inductive RetryResp where
  | notFound
  | alreadyCompleted
  | currentlyProcessing
  | noSessionId
  | retryStarted
  deriving DecidableEq

/-- `webhookController.retryMeetingProcessing`: 404 when the meeting does not
exist; 400 (and nothing else happens) when its status is completed or
processing; 400 when no ChatterBox session id is stored; otherwise the
service retry is dispatched fire-and-forget and 200 returned.  The controller
performs no row write of its own, so the stored meeting it answers about is
returned unchanged (third component). -/
def retryMeetingProcessing (found : Option Meeting) :
    RetryResp × Bool × Option Meeting :=
  match found with
  | none => (.notFound, false, none)
  | some m =>
    if m.status = .completed then (.alreadyCompleted, false, some m)
    else if m.status = .processing then (.currentlyProcessing, false, some m)
    else
      match m.chatterbox_session_id with
      | some _ => (.retryStarted, true, some m)
      | none => (.noSessionId, false, some m)

/-- Outcome of one `meetingService.retryProcessing` call. -/
structure RetryOut where
  events : List REvent
  invoked : Bool
  run : Option RunOut
  res : Except String Unit

/-- `meetingService.retryProcessing(meetingId, sessionId)`: reset the row to
status processing, fetch the session data once (not retried), and when a
recording link is present and the (hard-coded) URL check passes, re-invoke
`processRecordingUrgently`; otherwise throw, which the catch converts into a
status failed row update before rethrowing. -/
def retryProcessing (m : Meeting) (sessionId : String)
    (sessionOnce : Except String SessionData) (o : PipelineOracle)
    (alertOk : Bool) (now : Nat) : RetryOut :=
  let m1 := { m with
    status := .processing,
    processing_started_at := some now,
    updated_at := now }
  let ev0 := [REvent.meetingUpdate "retry_processing_start" m1]
  match sessionOnce with
  | .error e =>
    let mf := { m1 with status := .failed, updated_at := now }
    ⟨ev0 ++ [.meetingUpdate "retry_failed" mf], false, none, .error e⟩
  | .ok sd =>
    match sd.recordingLink with
    | none =>
      let mf := { m1 with status := .failed, updated_at := now }
      ⟨ev0 ++ [.meetingUpdate "retry_failed" mf], false, none,
        .error "No recording URL available for retry"⟩
    | some url =>
      if isRecordingUrlValid url = false then
        let mf := { m1 with status := .failed, updated_at := now }
        ⟨ev0 ++ [.meetingUpdate "retry_failed" mf], false, none,
          .error "Recording URL has expired and cannot be retried"⟩
      else
        let r := processRecordingUrgently m1 (some url) sessionId o alertOk now
        match r.res with
        | .ok _ => ⟨ev0 ++ r.events, true, some r, .ok ()⟩
        | .error e =>
          let mf := { r.final with status := .failed, updated_at := now }
          ⟨ev0 ++ r.events ++ [.meetingUpdate "retry_failed" mf], true,
            some r, .error e⟩

/-- C7: the manual retry is permitted only when the current status is neither
completed nor processing — requests in those states are rejected with the
stored meeting unchanged and no service dispatch — and the permitted retry
re-invokes `processRecordingUrgently` exactly when the freshly fetched
session metadata carries a usable recording locator. -/
theorem retry_gating (found : Option Meeting) :
    (∀ m, found = some m → m.status = .completed →
      retryMeetingProcessing found = (.alreadyCompleted, false, some m)) ∧
    (∀ m, found = some m → ¬ m.status = .completed → m.status = .processing →
      retryMeetingProcessing found = (.currentlyProcessing, false, some m)) ∧
    ((retryMeetingProcessing found).2.1 = true →
      ∃ m, found = some m ∧ ¬ m.status = .completed ∧
        ¬ m.status = .processing) ∧
    (retryMeetingProcessing found).2.2 = found ∧
    (∀ m sid so o a now,
      (retryProcessing m sid so o a now).invoked = true ↔
        ∃ sd url, so = .ok sd ∧ sd.recordingLink = some url) := by
  refine ⟨?_, ?_, ?_, ?_, ?_⟩
  · intro m hm hc
    subst hm
    simp [retryMeetingProcessing, hc]
  · intro m hm hnc hp
    subst hm
    simp [retryMeetingProcessing, hnc, hp]
  · cases found with
    | none => intro h; exact absurd h (by simp [retryMeetingProcessing])
    | some m =>
      intro h
      by_cases hc : m.status = .completed
      · exact absurd h (by simp [retryMeetingProcessing, hc])
      by_cases hp : m.status = .processing
      · exact absurd h (by simp [retryMeetingProcessing, hc, hp])
      exact ⟨m, rfl, hc, hp⟩
  · cases found with
    | none => rfl
    | some m =>
      by_cases hc : m.status = .completed
      · simp [retryMeetingProcessing, hc]
      by_cases hp : m.status = .processing
      · simp [retryMeetingProcessing, hc, hp]
      cases hs : m.chatterbox_session_id with
      | some sid => simp [retryMeetingProcessing, hc, hp, hs]
      | none => simp [retryMeetingProcessing, hc, hp, hs]
  · intro m sid so o a now
    cases so with
    | error e => simp [retryProcessing]
    | ok sd =>
      cases hl : sd.recordingLink with
      | none => simp [retryProcessing, hl]
      | some url =>
        have hv : (isRecordingUrlValid url = false) = (true = false) := rfl
        constructor
        · intro _
          exact ⟨sd, url, rfl, hl⟩
        · intro _
          cases hr : (processRecordingUrgently { m with
              status := .processing,
              processing_started_at := some now,
              updated_at := now } (some url) sid o a now).res with
          | ok u => simp [retryProcessing, isRecordingUrlValid, hl, hr]
          | error e => simp [retryProcessing, isRecordingUrlValid, hl, hr]

/-- C7 witness: a completed meeting is rejected, and with a locator present
the service retry re-invokes the pipeline. -/
theorem retry_gating_witness :
    retryMeetingProcessing (some mCompleted) =
      (.alreadyCompleted, false, some mCompleted) ∧
    (retryProcessing mCompleted "sess-1"
      (.ok { recordingLink := some "https://s3/rec2" }) oAllOk true 5).invoked =
      true :=
  ⟨(retry_gating (some mCompleted)).1 mCompleted rfl rfl,
    ((retry_gating (some mCompleted)).2.2.2.2 mCompleted "sess-1"
        (.ok { recordingLink := some "https://s3/rec2" }) oAllOk true 5).mpr
      ⟨{ recordingLink := some "https://s3/rec2" }, "https://s3/rec2", rfl, rfl⟩⟩

/-- The label text assigned to the k-th distinct speaker:
`Speaker ${speakerCount}` in the source. -/
def spLabel (k : Nat) : String := "Speaker " ++ toString k

/-- Association-list lookup, the `speakerMap.get` of the source. -/
def lookupSp : List (String × String) → String → Option String
  | [], _ => none
  | (a, v) :: t, s => if a = s then some v else lookupSp t s

/-- padStart to width 2 with leading zeros, on a decimal number. -/
def pad2 (n : Nat) : String := if n < 10 then "0" ++ toString n else toString n

/-- `transcriptService.formatTimestamp`: milliseconds to mm:ss, or h:mm:ss
past an hour; a missing/zero start renders 00:00. -/
def formatTimestamp (timeStart : Nat) : String :=
  if timeStart = 0 then "00:00"
  else
    let totalSeconds := timeStart / 1000
    let hours := totalSeconds / 3600
    let minutes := totalSeconds % 3600 / 60
    let seconds := totalSeconds % 60
    if hours > 0 then
      pad2 hours ++ ":" ++ pad2 minutes ++ ":" ++ pad2 seconds
    else
      pad2 minutes ++ ":" ++ pad2 seconds

/-- The entry loop of `transcriptService.generateTranscriptText`: skip
entries with empty/whitespace-only text; give a speaker not yet in the map
the next `Speaker k` label; emit a timestamped speaker header whenever the
(labelled) speaker changes, then the trimmed text and a blank line. -/
def gttBody : List TranscriptEntry → Option String → Nat →
    List (String × String) → List String
  | [], _, _, _ => []
  | e :: rest, currentSpeaker, speakerCount, speakerMap =>
    if e.text.trim = "" then gttBody rest currentSpeaker speakerCount speakerMap
    else
      let sc : Nat × List (String × String) :=
        match lookupSp speakerMap e.speaker with
        | some _ => (speakerCount, speakerMap)
        | none => (speakerCount + 1,
            speakerMap ++ [(e.speaker, spLabel (speakerCount + 1))])
      let speakerName := (lookupSp sc.2 e.speaker).getD ""
      (if currentSpeaker = some speakerName then []
       else (if currentSpeaker.isSome then [""] else []) ++
         ["[" ++ formatTimestamp e.timeStart ++ "] " ++ speakerName ++ ":"]) ++
      [e.text.trim, ""] ++ gttBody rest (some speakerName) sc.1 sc.2

/-- `transcriptService.generateTranscriptText`: the no-data message for an
empty array, else the transcript banner line followed by the entry loop
output, joined with newlines. -/
def generateTranscriptText (transcriptArray : List TranscriptEntry) : String :=
  if transcriptArray.isEmpty then "\n\n⚠️ No transcript data available\n\n"
  else String.intercalate "\n"
    ("\n🎙️ TRANSCRIPT\n" :: gttBody transcriptArray none 0 [])

/-- Entries that are kept: non-empty text after trimming (in the words
of the claim: entries whose text is empty or whitespace-only are omitted). -/
def includedEntries (arr : List TranscriptEntry) : List TranscriptEntry :=
  arr.filter (fun e => e.text.trim != "")

/-- First-appearance order of a list of raw speaker values. -/
def firstOccurAux (seen : List String) : List String → List String
  | [] => []
  | s :: rest =>
    if s ∈ seen then firstOccurAux seen rest
    else s :: firstOccurAux (seen ++ [s]) rest

/-- The speaker ordering of the claim: raw speakers in order of first appearance
among the entries with non-empty text. -/
def speakerOrder (arr : List TranscriptEntry) : List String :=
  firstOccurAux [] ((includedEntries arr).map (fun e => e.speaker))

/-- The labelling of the claim: the k-th speaker of `order` (1-based) is rendered
`Speaker k`. -/
def claimLabel (order : List String) (s : String) : String :=
  spLabel (order.indexOf s + 1)

/-- Rendering described by the claim: every kept entry shows only the label
`L raw-speaker` (never the raw value), with a header whenever the label
changes. -/
def claimBody (L : String → String) :
    List TranscriptEntry → Option String → List String
  | [], _ => []
  | e :: rest, cur =>
    let nm := L e.speaker
    (if cur = some nm then []
     else (if cur.isSome then [""] else []) ++
       ["[" ++ formatTimestamp e.timeStart ++ "] " ++ nm ++ ":"]) ++
    [e.text.trim, ""] ++ claimBody L rest (some nm)

/-- The transcript text as the claim describes it: whitespace-only entries
omitted, raw speakers appearing only through their first-appearance
`Speaker k` labels. -/
def claimTranscriptText (arr : List TranscriptEntry) : String :=
  if arr.isEmpty then "\n\n⚠️ No transcript data available\n\n"
  else String.intercalate "\n"
    ("\n🎙️ TRANSCRIPT\n" ::
      claimBody (claimLabel (speakerOrder arr)) (includedEntries arr) none)

theorem gttBody_filter :
    ∀ (l : List TranscriptEntry) (cur : Option String) (cnt : Nat)
      (mp : List (String × String)),
      gttBody l cur cnt mp = gttBody (includedEntries l) cur cnt mp := by
  intro l
  induction l with
  | nil => intro cur cnt mp; rfl
  | cons e rest ih =>
    intro cur cnt mp
    by_cases ht : e.text.trim = ""
    · have hb : (e.text.trim != "") = false := by rw [ht]; simp
      have hf : includedEntries (e :: rest) = includedEntries rest := by
        simp [includedEntries, List.filter, hb]
      rw [hf]
      have : gttBody (e :: rest) cur cnt mp = gttBody rest cur cnt mp := by
        simp [gttBody, ht]
      rw [this]
      exact ih cur cnt mp
    · have hb : (e.text.trim != "") = true := bne_iff_ne.mpr ht
      have hf : includedEntries (e :: rest) = e :: includedEntries rest := by
        simp [includedEntries, List.filter, hb]
      rw [hf]
      simp only [gttBody, ht, if_false]
      rw [ih]

/-- The speaker map maintained by the loop, as a function of the speakers
already labelled (in order), with labels offset by `k`. -/
def mkMapFrom (k : Nat) : List String → List (String × String)
  | [] => []
  | s :: t => (s, spLabel (k + 1)) :: mkMapFrom (k + 1) t

theorem lookup_mkMapFrom :
    ∀ (seen : List String) (k : Nat) (s : String),
      lookupSp (mkMapFrom k seen) s =
        if s ∈ seen then some (spLabel (k + seen.indexOf s + 1)) else none := by
  intro seen
  induction seen with
  | nil => intro k s; simp [mkMapFrom, lookupSp]
  | cons a t ih =>
    intro k s
    by_cases has : a = s
    · subst has
      simp [mkMapFrom, lookupSp, List.indexOf_cons_self]
    · have hm : (s ∈ a :: t) = (s ∈ t) := by
        simp [List.mem_cons, has, Ne.symm has]
      simp only [mkMapFrom, lookupSp, if_neg has, ih (k + 1) s]
      by_cases hmem : s ∈ t
      · rw [if_pos hmem, if_pos (by simp [List.mem_cons, hmem])]
        have hidx : (a :: t).indexOf s = t.indexOf s + 1 := by
          rw [List.indexOf_cons_ne _ (by exact has)]
        rw [hidx]
        have harith : k + 1 + t.indexOf s + 1 = k + (t.indexOf s + 1) + 1 := by
          omega
        rw [harith]
      · rw [if_neg hmem, if_neg (by simp [List.mem_cons, hmem, Ne.symm has])]

theorem mkMapFrom_append :
    ∀ (seen : List String) (k : Nat) (s : String),
      mkMapFrom k (seen ++ [s]) =
        mkMapFrom k seen ++ [(s, spLabel (k + seen.length + 1))] := by
  intro seen
  induction seen with
  | nil => intro k s; simp [mkMapFrom]
  | cons a t ih =>
    intro k s
    have harith : k + 1 + t.length + 1 = k + (t.length + 1) + 1 := by omega
    simp only [List.cons_append, mkMapFrom, List.length_cons, List.append_eq]
    rw [ih (k + 1) s, harith]

theorem firstOccurAux_mem {s : String} {seen : List String} (h : s ∈ seen)
    (xs : List String) :
    firstOccurAux seen (s :: xs) = firstOccurAux seen xs := by
  simp [firstOccurAux, h]

theorem firstOccurAux_new {s : String} {seen : List String} (h : ¬ s ∈ seen)
    (xs : List String) :
    firstOccurAux seen (s :: xs) = s :: firstOccurAux (seen ++ [s]) xs := by
  simp [firstOccurAux, h]

theorem gttBody_eq_claimBody :
    ∀ (post : List TranscriptEntry) (cur : Option String) (seen : List String),
      (∀ e ∈ post, ¬ e.text.trim = "") →
      gttBody post cur seen.length (mkMapFrom 0 seen) =
        claimBody
          (claimLabel (seen ++
            firstOccurAux seen (post.map (fun x => x.speaker))))
          post cur := by
  intro post
  induction post with
  | nil => intro cur seen _; rfl
  | cons e rest ih =>
    intro cur seen hinc
    have ht : ¬ e.text.trim = "" := hinc e (List.mem_cons_self e rest)
    have hrest : ∀ x ∈ rest, ¬ x.text.trim = "" :=
      fun x hx => hinc x (List.mem_cons_of_mem e hx)
    by_cases hs : e.speaker ∈ seen
    · have hlook : lookupSp (mkMapFrom 0 seen) e.speaker =
          some (spLabel (seen.indexOf e.speaker + 1)) := by
        rw [lookup_mkMapFrom seen 0 e.speaker, if_pos hs]
        simp
      have hL : claimLabel
          (seen ++ firstOccurAux seen (rest.map (fun x => x.speaker)))
          e.speaker = spLabel (seen.indexOf e.speaker + 1) := by
        unfold claimLabel
        rw [List.indexOf_append_of_mem hs]
      simp only [List.map_cons, firstOccurAux_mem hs]
      simp only [gttBody, claimBody, if_neg ht, hlook, Option.getD_some, hL]
      rw [ih (some (spLabel (seen.indexOf e.speaker + 1))) seen hrest]
    · have hlook : lookupSp (mkMapFrom 0 seen) e.speaker = none := by
        rw [lookup_mkMapFrom seen 0 e.speaker, if_neg hs]
      have hext : mkMapFrom 0 seen ++ [(e.speaker, spLabel (seen.length + 1))] =
          mkMapFrom 0 (seen ++ [e.speaker]) := by
        rw [mkMapFrom_append seen 0 e.speaker]
        simp
      have hlook2 : lookupSp (mkMapFrom 0 (seen ++ [e.speaker])) e.speaker =
          some (spLabel (seen.length + 1)) := by
        rw [lookup_mkMapFrom]
        rw [if_pos (by simp)]
        have hidx : (seen ++ [e.speaker]).indexOf e.speaker = seen.length := by
          rw [List.indexOf_append_of_not_mem hs]
          simp [List.indexOf_cons_self]
        rw [hidx]
        simp
      have hL2 : claimLabel
          (seen ++ e.speaker ::
            firstOccurAux (seen ++ [e.speaker]) (rest.map (fun x => x.speaker)))
          e.speaker = spLabel (seen.length + 1) := by
        unfold claimLabel
        rw [List.indexOf_append_of_not_mem hs]
        simp [List.indexOf_cons_self]
      have hassoc : seen ++ e.speaker ::
          firstOccurAux (seen ++ [e.speaker]) (rest.map (fun x => x.speaker)) =
          (seen ++ [e.speaker]) ++
            firstOccurAux (seen ++ [e.speaker]) (rest.map (fun x => x.speaker)) := by
        simp
      have hlen : (seen ++ [e.speaker]).length = seen.length + 1 := by simp
      simp only [List.map_cons, firstOccurAux_new hs]
      simp only [gttBody, claimBody, if_neg ht, hlook, hext, hlook2,
        Option.getD_some, hL2]
      have hrec := ih (some (spLabel (seen.length + 1))) (seen ++ [e.speaker]) hrest
      rw [hlen] at hrec
      rw [hrec, hassoc]

/-- C10: the generated transcript text is exactly the rendering the claim
describes: raw
speaker identifiers appear only through their labels, each distinct raw
speaker getting `Speaker k` with k the order of its first appearance among
the entries with non-empty text, the same raw speaker always mapped to the
same label, and empty/whitespace-only entries omitted without being assigned
a label. -/
theorem generateTranscriptText_labels (arr : List TranscriptEntry) :
    generateTranscriptText arr = claimTranscriptText arr := by
  unfold generateTranscriptText claimTranscriptText
  by_cases he : arr.isEmpty
  · rw [if_pos he, if_pos he]
  · rw [if_neg he, if_neg he]
    congr 2
    rw [gttBody_filter arr none 0 []]
    have hinc : ∀ x ∈ includedEntries arr, ¬ x.text.trim = "" := by
      intro x hx
      unfold includedEntries at hx
      rw [List.mem_filter] at hx
      exact bne_iff_ne.mp hx.2
    have hmain := gttBody_eq_claimBody (includedEntries arr) none [] hinc
    simpa [speakerOrder] using hmain
